import Mathlib

set_option maxRecDepth 8000

/-!
Verification development for the DesignCube inventory and sales tracker
(src/DesignCubeApp/app.js).  The JavaScript source is shallowly embedded:
JS numbers that matter to the ledger are modelled as rationals, with the
floating-point NaN and the absence of a field (undefined) represented
explicitly, since the sale-recording routine can produce both.
-/

/-- Value of a JS numeric field as the ledger code observes it: a finite
number (modelled as a rational), NaN, or a missing field (undefined). -/
inductive JSNum where
  | undef : JSNum
  | nan : JSNum
  | num : ℚ → JSNum
  deriving DecidableEq

/-- JS relational comparison a > b.  Any comparison involving NaN is false,
and undefined coerces to NaN, so only two finite numbers can compare true. -/
def jsGt : JSNum → JSNum → Bool
  | JSNum.num a, JSNum.num b => decide (b < a)
  | _, _ => false

/-- JS subtraction a - b: finite on finite numbers, NaN whenever either
operand is NaN or undefined. -/
def jsSub : JSNum → JSNum → JSNum
  | JSNum.num a, JSNum.num b => JSNum.num (a - b)
  | _, _ => JSNum.nan

/-- The fallback pattern x || 0 used throughout app.js: a finite number is
kept (0 falls through to the 0 default, which is the same value), while NaN
and undefined are falsy and become 0. -/
def jsOrZero : JSNum → ℚ
  | JSNum.num a => a
  | _ => 0

/-- JS multiplication of an already-defaulted finite number by a raw field
value, as in (product.pricePerBox || 0) * quantity in app.js line 167. -/
def mulNum (a : ℚ) : JSNum → JSNum
  | JSNum.num b => JSNum.num (a * b)
  | _ => JSNum.nan

/-- Product record (app.js data model: serial, type, brand, name, size,
numBoxes, numPieces, pricePerBox, stock).  Numeric fields may be missing. -/
structure Product where
  serial : String
  type : Option String
  brand : String
  name : String
  size : Option String
  numBoxes : JSNum
  numPieces : JSNum
  pricePerBox : JSNum
  stock : JSNum
  deriving DecidableEq

/-- Sale record as pushed in app.js line 168:
sales.push({ serial, name, quantity, total, date, type }). -/
structure Sale where
  serial : String
  name : String
  quantity : JSNum
  total : JSNum
  date : String
  type : Option String
  deriving DecidableEq

/-- In-memory state of the ledger: the two module-level collections
products and sales of app.js. -/
structure LedgerState where
  products : List Product
  sales : List Sale
  deriving DecidableEq

/-- Outcome of one sale-entry attempt: the alert branch of app.js line 160
(invalid serial or insufficient stock) or a recorded sale. -/
inductive SaleResult where
  | invalidSale : SaleResult
  | recorded : Sale → SaleResult
  deriving DecidableEq

/-- The sale object built in app.js lines 167-168: total is
(product.pricePerBox || 0) * quantity, and name and type are denormalised
copies of the product fields at sale time. -/
def mkSale (serial : String) (p : Product) (quantity : JSNum) (date : String) : Sale :=
  { serial := serial, name := p.name, quantity := quantity,
    total := mulNum (jsOrZero p.pricePerBox) quantity, date := date, type := p.type }

/-- In-place mutation product.stock -= quantity of app.js line 166, applied
to the first product matching the serial (the one products.find returns). -/
def updateFirstStock : List Product → String → JSNum → List Product
  | [], _, _ => []
  | p :: ps, serial, q =>
    if p.serial == serial then { p with stock := jsSub p.stock q } :: ps
    else p :: updateFirstStock ps serial q

/-- One iteration of the sale-entry loop of prepareNewSales (app.js lines
156-168): find the product by serial, reject when no product matches or
quantity > product.stock, otherwise decrement the stock and append the new
sale.  On rejection the state is returned unchanged. -/
def recordSale (st : LedgerState) (serial : String) (quantity : JSNum) (date : String) :
    SaleResult × LedgerState :=
  match st.products.find? (fun p => p.serial == serial) with
  | none => (SaleResult.invalidSale, st)
  | some product =>
    if jsGt quantity product.stock then (SaleResult.invalidSale, st)
    else
      (SaleResult.recorded (mkSale serial product quantity date),
        { products := updateFirstStock st.products serial quantity,
          sales := st.sales ++ [mkSale serial product quantity date] })

/-- Stock of the product a given serial resolves to (the first match, as in
products.find), when one exists. -/
def stockOf (st : LedgerState) (serial : String) : Option JSNum :=
  (st.products.find? (fun p => p.serial == serial)).map Product.stock

/-- Run a sequence of sale-entry attempts against one serial, requiring
every attempt to succeed; any rejected attempt aborts the run. -/
def runSales (st : LedgerState) (serial : String) : List (JSNum × String) → Option LedgerState
  | [] => some st
  | (q, d) :: rest =>
    match recordSale st serial q d with
    | (SaleResult.recorded _, st1) => runSales st1 serial rest
    | (SaleResult.invalidSale, _) => none

/-- Dashboard summary derived in updateDashboard (app.js lines 34-54). -/
structure Summary where
  productCount : Nat
  totalStockUnits : ℚ
  totalSalesValue : ℚ
  lowStockProducts : List Product
  deriving DecidableEq

/-- The four dashboard quantities computed by updateDashboard: products
count, reduce over (p.stock || 0), reduce over (s.total || 0), and the
filter (p.stock || 0) <= 5. -/
def aggregateSummary (st : LedgerState) : Summary :=
  { productCount := st.products.length,
    totalStockUnits := st.products.foldl (fun sum p => sum + jsOrZero p.stock) 0,
    totalSalesValue := st.sales.foldl (fun sum s => sum + jsOrZero s.total) 0,
    lowStockProducts := st.products.filter (fun p => decide (jsOrZero p.stock ≤ 5)) }

/-- Spec-side reading of a numeric field for the summary: a missing value
is treated as zero and a present number is itself (the spec data model has
no NaN; the claim theorems restrict to NaN-free states, where this function
and the code's falsy-coercion jsOrZero visibly agree). -/
def specMissingZero : JSNum → ℚ
  | JSNum.undef => 0
  | JSNum.nan => 0
  | JSNum.num a => a

/-- Optional-chaining lowercase p.type?.toLowerCase() of app.js. -/
def optLower : Option String → Option String :=
  Option.map String.toLower

/-- Filter of renderTilesTable (app.js line 64):
p.type?.toLowerCase() === 'tile'. -/
def tilesList (st : LedgerState) : List Product :=
  st.products.filter (fun p => optLower p.type == some "tile")

/-- Filter of renderSanitaryTable (app.js line 79):
p.type?.toLowerCase() === 'sanitary'. -/
def sanitaryList (st : LedgerState) : List Product :=
  st.products.filter (fun p => optLower p.type == some "sanitary")

/-- Filter of renderOthersTable (app.js line 94):
!['tile', 'sanitary'].includes(p.type?.toLowerCase()); an undefined type is
not a member of the array, so such products land here. -/
def othersList (st : LedgerState) : List Product :=
  st.products.filter (fun p =>
    !(match optLower p.type with
      | some t => ["tile", "sanitary"].contains t
      | none => false))

/-- Spec-side category predicate: the type field is present and compares
case-insensitively equal to the given category name. -/
def caseMatches (ty : Option String) (cat : String) : Bool :=
  match ty with
  | some s => s.toLower == cat
  | none => false

/-- Outcome of JSON.parse(localStorage.getItem(key)) for one collection,
abstracting the external JSON parser: the stored blob is malformed and the
parse throws, or it parses to a falsy value (in particular null, which is
what an absent key yields), or it parses to a collection value. -/
inductive ParseOutcome (α : Type) where
  | throws : ParseOutcome α
  | falsy : ParseOutcome α
  | value : α → ParseOutcome α
  deriving DecidableEq

/-- Startup failure: app.js lines 10-11 wrap JSON.parse in no try/catch, so
a parse error propagates uncaught. -/
inductive InitError where
  | uncaughtParseError : InitError
  deriving DecidableEq

/-- One collection load, JSON.parse(localStorage.getItem(k)) || []:
a falsy parse result falls back to the empty array, a truthy value is kept,
and a throwing parse aborts the whole script. -/
def loadColl {α : Type} : ParseOutcome (List α) → Except InitError (List α)
  | ParseOutcome.throws => Except.error InitError.uncaughtParseError
  | ParseOutcome.falsy => Except.ok []
  | ParseOutcome.value v => Except.ok v

/-- Startup initialisation of app.js lines 10-11: load products, then
sales; an error in either load aborts (products first, as in the source). -/
def loadLedger (bp : ParseOutcome (List Product)) (bs : ParseOutcome (List Sale)) :
    Except InitError LedgerState :=
  match loadColl bp with
  | Except.error e => Except.error e
  | Except.ok ps =>
    match loadColl bs with
    | Except.error e => Except.error e
    | Except.ok ss => Except.ok { products := ps, sales := ss }

/-- Application state including the persistent store: the in-memory ledger
plus the two localStorage slots for products and sales. -/
structure AppState where
  ledger : LedgerState
  storeProducts : List Product
  storeSales : List Sale
  deriving DecidableEq

/-- One user entry in the prepareNewSales prompt loop. -/
structure SaleAttempt where
  serial : String
  quantity : JSNum
  date : String
  deriving DecidableEq

/-- One iteration of the while loop of prepareNewSales: only the in-memory
ledger changes; localStorage is untouched inside the loop. -/
def loopStep (app : AppState) (a : SaleAttempt) : AppState :=
  { app with ledger := (recordSale app.ledger a.serial a.quantity a.date).2 }

/-- The localStorage.setItem pair of app.js lines 174-175: both collections
are serialised to the store. -/
def flushStore (app : AppState) : AppState :=
  { app with storeProducts := app.ledger.products, storeSales := app.ledger.sales }

/-- prepareNewSales (app.js lines 148-180) on a given sequence of user
entries: run the prompt loop, then flush both collections to the store
once, after the loop has ended. -/
def prepareNewSales (app : AppState) (attempts : List SaleAttempt) : AppState :=
  flushStore (attempts.foldl loopStep app)

/-! Helper lemmas about the embedding. -/

/-- Folding a sum with an accumulator equals the accumulator plus the sum
of the mapped list. -/
theorem foldl_add_eq_sum {α : Type} (f : α → ℚ) (l : List α) (a : ℚ) :
    l.foldl (fun s x => s + f x) a = a + (l.map f).sum := by
  induction l generalizing a with
  | nil => simp
  | cons x xs ih => simp [ih, add_assoc]

/-- The in-place stock decrement leaves products.find looking up the same
product, now with its stock reduced. -/
theorem find?_updateFirstStock (l : List Product) (serial : String) (q : JSNum) :
    (updateFirstStock l serial q).find? (fun x => x.serial == serial) =
      (l.find? (fun x => x.serial == serial)).map
        (fun x => { x with stock := jsSub x.stock q }) := by
  induction l with
  | nil => rfl
  | cons p ps ih =>
    by_cases h : p.serial = serial
    · have hb : (p.serial == serial) = true := beq_iff_eq.mpr h
      simp [updateFirstStock, List.find?, hb]
    · have hb : (p.serial == serial) = false := beq_eq_false_iff_ne.mpr h
      simp [updateFirstStock, List.find?, hb, ih]

/-- Concrete example product with serial A, stock 10, price 200. -/
def exA : Product :=
  { serial := "A", type := some "Tile", brand := "B", name := "N", size := none,
    numBoxes := JSNum.num 4, numPieces := JSNum.num 0, pricePerBox := JSNum.num 200,
    stock := JSNum.num 10 }

/-- Concrete example ledger holding only the product exA. -/
def exSt : LedgerState := { products := [exA], sales := [] }

/-- C3: a recordSale attempt whose serial matches no product, or whose
quantity numerically exceeds the matched product's stock, is rejected with
InvalidSale and returns the ledger state exactly unchanged (both the
products and the sales collections). -/
theorem C3_invalid_sale_rejected (st : LedgerState) (serial : String) (q : JSNum) (d : String)
    (h : st.products.find? (fun x => x.serial == serial) = none ∨
      (∃ p s qq, st.products.find? (fun x => x.serial == serial) = some p ∧
        p.stock = JSNum.num s ∧ q = JSNum.num qq ∧ s < qq)) :
    recordSale st serial q d = (SaleResult.invalidSale, st) := by
  rcases h with h | ⟨p, s, qq, hf, hs, hq, hlt⟩
  · simp [recordSale, h]
  · simp [recordSale, hf, hs, hq, jsGt, hlt]

/-- C3 witness: on the one-product example ledger, an unknown serial and an
excessive quantity are both rejected and leave the state unchanged. -/
theorem C3_witness :
    recordSale exSt "ZZZ" (JSNum.num 1) "d" = (SaleResult.invalidSale, exSt) ∧
    recordSale exSt "A" (JSNum.num 20) "d" = (SaleResult.invalidSale, exSt) :=
  ⟨C3_invalid_sale_rejected exSt "ZZZ" (JSNum.num 1) "d" (Or.inl (by decide)),
   C3_invalid_sale_rejected exSt "A" (JSNum.num 20) "d"
     (Or.inr ⟨exA, 10, 20, by decide, by decide, rfl, by norm_num⟩)⟩

/-- C4: a successful recordSale on a product with numeric stock records
exactly the sale built by mkSale: total is quantity times the price with a
missing price treated as zero, the date and the denormalised name and type
are carried, the sale is appended at the end of the sales collection, and
the product's stock is decremented by exactly the quantity. -/
theorem C4_successful_sale (st : LedgerState) (serial : String) (p : Product) (s qq : ℚ)
    (d : String)
    (hf : st.products.find? (fun x => x.serial == serial) = some p)
    (hs : p.stock = JSNum.num s) (hq : qq ≤ s) :
    (recordSale st serial (JSNum.num qq) d).1 =
      SaleResult.recorded (mkSale serial p (JSNum.num qq) d) ∧
    (mkSale serial p (JSNum.num qq) d).total = JSNum.num (jsOrZero p.pricePerBox * qq) ∧
    (mkSale serial p (JSNum.num qq) d).name = p.name ∧
    (mkSale serial p (JSNum.num qq) d).type = p.type ∧
    (mkSale serial p (JSNum.num qq) d).date = d ∧
    (recordSale st serial (JSNum.num qq) d).2.sales =
      st.sales ++ [mkSale serial p (JSNum.num qq) d] ∧
    stockOf (recordSale st serial (JSNum.num qq) d).2 serial = some (JSNum.num (s - qq)) := by
  have hgt : jsGt (JSNum.num qq) (JSNum.num s) = false := by
    simpa [jsGt] using hq
  have hgt2 : jsGt (JSNum.num qq) p.stock = false := by rw [hs]; exact hgt
  refine ⟨?_, by simp [mkSale, mulNum], rfl, rfl, rfl, ?_, ?_⟩
  · simp [recordSale, hf, hgt2]
  · simp [recordSale, hf, hgt2]
  · simp [recordSale, hf, hgt2, hgt, hs, stockOf, find?_updateFirstStock, jsSub]

/-- C4 witness: the spec scenario, a product with serial T1, stock 10 and
price 200; selling 3 yields a sale with total 600 and stock 7. -/
theorem C4_witness :
    exSt.products.find? (fun x => x.serial == "A") = some exA ∧
    exA.stock = JSNum.num 10 ∧ (3 : ℚ) ≤ 10 ∧
    (recordSale exSt "A" (JSNum.num 3) "d").1 =
      SaleResult.recorded (mkSale "A" exA (JSNum.num 3) "d") ∧
    (mkSale "A" exA (JSNum.num 3) "d").total = JSNum.num 600 ∧
    (recordSale exSt "A" (JSNum.num 3) "d").2.sales = [mkSale "A" exA (JSNum.num 3) "d"] ∧
    stockOf (recordSale exSt "A" (JSNum.num 3) "d").2 "A" = some (JSNum.num 7) := by
  have hmain := C4_successful_sale exSt "A" exA 10 3 "d" (by decide) (by decide) (by norm_num)
  refine ⟨by decide, by decide, by norm_num, hmain.1, ?_, ?_, ?_⟩
  · have h := hmain.2.1
    norm_num [exA, jsOrZero] at h
    exact h
  · have h := hmain.2.2.2.2.2.1
    simpa [exSt] using h
  · have h := hmain.2.2.2.2.2.2
    norm_num at h
    exact h

/-- C2 amended: prepareNewSales performs no positivity or numericness check
on the quantity; whenever the serial resolves to a product with
non-negative numeric stock, any non-positive numeric quantity and likewise
the non-numeric quantity NaN is accepted: the call does not fail with
InvalidSale, a sale is appended, and the stock becomes the JS subtraction
stock minus quantity (so a negative quantity increases the stock and a NaN
quantity leaves the stock NaN). -/
theorem C2_no_positivity_check (st : LedgerState) (serial : String) (q : JSNum) (s : ℚ)
    (d : String)
    (h0 : stockOf st serial = some (JSNum.num s))
    (hq : q = JSNum.nan ∨ ∃ qq, q = JSNum.num qq ∧ qq ≤ 0)
    (hs : 0 ≤ s) :
    (recordSale st serial q d).1 ≠ SaleResult.invalidSale ∧
    (recordSale st serial q d).2.sales.length = st.sales.length + 1 ∧
    stockOf (recordSale st serial q d).2 serial = some (jsSub (JSNum.num s) q) := by
  unfold stockOf at h0
  cases hf : st.products.find? (fun x => x.serial == serial) with
  | none => rw [hf] at h0; simp at h0
  | some p =>
    rw [hf] at h0
    simp at h0
    have hgt : jsGt q (JSNum.num s) = false := by
      rcases hq with rfl | ⟨qq, rfl, hqq⟩
      · rfl
      · simpa [jsGt] using hqq.trans hs
    have hgt2 : jsGt q p.stock = false := by rw [h0]; exact hgt
    refine ⟨?_, ?_, ?_⟩
    · simp [recordSale, hf, hgt2]
    · simp [recordSale, hf, hgt2]
    · simp [recordSale, hf, hgt, hgt2, stockOf, find?_updateFirstStock, h0]

/-- C2 counterexample: selling quantity -2 of product A (stock 10) is not
rejected as the claim requires; the sales collection changes and the stock
rises to 12. -/
theorem C2_counterexample :
    (recordSale exSt "A" (JSNum.num (-2)) "d").1 ≠ SaleResult.invalidSale ∧
    (recordSale exSt "A" (JSNum.num (-2)) "d").2.sales ≠ exSt.sales ∧
    stockOf (recordSale exSt "A" (JSNum.num (-2)) "d").2 "A" = some (JSNum.num 12) := by
  refine ⟨by decide, by decide, ?_⟩
  norm_num [stockOf, recordSale, exSt, exA, updateFirstStock, jsGt, jsSub, mkSale,
    mulNum, jsOrZero, List.find?]

/-- C2 witness: on product A (stock 10), quantity 0 is accepted and leaves
the stock at the subtraction 10 minus 0, and the quantity NaN is also
accepted, leaving the stock NaN; both append a sale. -/
theorem C2_witness :
    stockOf exSt "A" = some (JSNum.num 10) ∧ (0 : ℚ) ≤ 10 ∧
    (recordSale exSt "A" (JSNum.num 0) "d").1 ≠ SaleResult.invalidSale ∧
    (recordSale exSt "A" (JSNum.num 0) "d").2.sales.length = exSt.sales.length + 1 ∧
    stockOf (recordSale exSt "A" (JSNum.num 0) "d").2 "A" =
      some (jsSub (JSNum.num 10) (JSNum.num 0)) ∧
    (recordSale exSt "A" JSNum.nan "d").1 ≠ SaleResult.invalidSale ∧
    (recordSale exSt "A" JSNum.nan "d").2.sales.length = exSt.sales.length + 1 ∧
    stockOf (recordSale exSt "A" JSNum.nan "d").2 "A" =
      some (jsSub (JSNum.num 10) JSNum.nan) := by
  have h1 := C2_no_positivity_check exSt "A" (JSNum.num 0) 10 "d" (by decide)
    (Or.inr ⟨0, rfl, le_refl 0⟩) (by norm_num)
  have h2 := C2_no_positivity_check exSt "A" JSNum.nan 10 "d" (by decide)
    (Or.inl rfl) (by norm_num)
  exact ⟨by decide, by norm_num, h1.1, h1.2.1, h1.2.2, h2.1, h2.2.1, h2.2.2⟩

/-- C1: starting from a product whose stock is a non-negative number, after
any sequence of successful recordSale calls referencing that product's
serial (with numeric quantities), the stock equals the initial stock minus
the sum of the recorded quantities, and at every point of the sequence the
stock so far is non-negative. -/
theorem C1_stock_conservation (st : LedgerState) (serial : String) (s0 : ℚ)
    (entries : List (ℚ × String)) (st' : LedgerState)
    (h0 : stockOf st serial = some (JSNum.num s0))
    (hnn : 0 ≤ s0)
    (hrun : runSales st serial (entries.map (fun e => (JSNum.num e.1, e.2))) = some st') :
    stockOf st' serial = some (JSNum.num (s0 - (entries.map Prod.fst).sum)) ∧
    ∀ k, 0 ≤ s0 - ((entries.take k).map Prod.fst).sum := by
  induction entries generalizing st s0 with
  | nil =>
    simp only [List.map_nil, runSales, Option.some.injEq] at hrun
    subst hrun
    constructor
    · simpa using h0
    · intro k
      simpa using hnn
  | cons e rest ih =>
    obtain ⟨q, d⟩ := e
    have h0' := h0
    unfold stockOf at h0'
    cases hf : st.products.find? (fun x => x.serial == serial) with
    | none =>
      rw [hf] at h0'
      simp at h0'
    | some p =>
      rw [hf] at h0'
      simp at h0'
      by_cases hlt : s0 < q
      · have hgt : jsGt (JSNum.num q) p.stock = true := by
          rw [h0']
          simpa [jsGt] using hlt
        simp [runSales, recordSale, hf, hgt] at hrun
      · have hq : q ≤ s0 := not_lt.mp hlt
        have hgt : jsGt (JSNum.num q) p.stock = false := by
          rw [h0']
          simpa [jsGt] using hq
        have hrec : recordSale st serial (JSNum.num q) d =
            (SaleResult.recorded (mkSale serial p (JSNum.num q) d),
              { products := updateFirstStock st.products serial (JSNum.num q),
                sales := st.sales ++ [mkSale serial p (JSNum.num q) d] }) := by
          simp [recordSale, hf, hgt]
        rw [List.map_cons] at hrun
        rw [runSales, hrec] at hrun
        have h1 : stockOf
            ({ products := updateFirstStock st.products serial (JSNum.num q),
               sales := st.sales ++ [mkSale serial p (JSNum.num q) d] } : LedgerState) serial =
            some (JSNum.num (s0 - q)) := by
          simp [stockOf, find?_updateFirstStock, hf, h0', jsSub]
        have hnn1 : 0 ≤ s0 - q := sub_nonneg.mpr hq
        obtain ⟨hfin, hpref⟩ := ih _ (s0 - q) h1 hnn1 hrun
        constructor
        · rw [hfin]
          have harith : s0 - q - (List.map Prod.fst rest).sum
              = s0 - (List.map Prod.fst ((q, d) :: rest)).sum := by
            simp only [List.map_cons, List.sum_cons]
            ring
          rw [harith]
        · intro k
          cases k with
          | zero => simpa using hnn
          | succ k =>
            have hk := hpref k
            simp only [List.take_succ_cons, List.map_cons, List.sum_cons]
            linarith

/-- Result state of the concrete C1 run: one sale of quantity 3 against
product A with stock 10. -/
def exC1Final : LedgerState :=
  (runSales exSt "A" ([((3 : ℚ), "d1")].map (fun e => (JSNum.num e.1, e.2)))).getD
    { products := [], sales := [] }

/-- C1 witness: on the one-product example ledger with stock 10, one
successful sale of quantity 3 gives stock 10 minus the recorded sum, and
the running stock is non-negative. -/
theorem C1_witness :
    stockOf exSt "A" = some (JSNum.num 10) ∧ (0 : ℚ) ≤ 10 ∧
    runSales exSt "A" ([((3 : ℚ), "d1")].map (fun e => (JSNum.num e.1, e.2)))
      = some exC1Final ∧
    stockOf exC1Final "A"
      = some (JSNum.num (10 - (([((3 : ℚ), "d1")]).map Prod.fst).sum)) ∧
    (0 : ℚ) ≤ 10 - (([((3 : ℚ), "d1")].take 1).map Prod.fst).sum := by
  have hmain := C1_stock_conservation exSt "A" 10 [((3 : ℚ), "d1")] exC1Final (by decide)
    (by norm_num) (by rfl)
  exact ⟨by decide, by norm_num, by rfl, hmain.1, hmain.2 1⟩

/-- C5: for NaN-free states (the spec's data model: every stock and total
either missing or a number), the dashboard summary realises the spec view:
the product count, the sums with a missing field treated as zero, and the
low-stock list as exactly the products whose stock (missing treated as
zero) is at most 5. -/
theorem C5_aggregate_summary (st : LedgerState)
    (hp : st.products.all (fun p => !(p.stock == JSNum.nan)) = true)
    (hs : st.sales.all (fun s => !(s.total == JSNum.nan)) = true) :
    (aggregateSummary st).productCount = st.products.length ∧
    (aggregateSummary st).totalStockUnits =
      (st.products.map (fun p => specMissingZero p.stock)).sum ∧
    (aggregateSummary st).totalSalesValue =
      (st.sales.map (fun s => specMissingZero s.total)).sum ∧
    (aggregateSummary st).lowStockProducts =
      st.products.filter (fun p => decide (specMissingZero p.stock ≤ 5)) := by
  have hz : ∀ x : JSNum, x ≠ JSNum.nan → jsOrZero x = specMissingZero x := by
    intro x hx
    cases x with
    | undef => rfl
    | nan => exact absurd rfl hx
    | num a => rfl
  have hp' : ∀ p ∈ st.products, p.stock ≠ JSNum.nan := by
    intro p hmem
    have hb := List.all_eq_true.mp hp p hmem
    simpa using hb
  have hs' : ∀ s ∈ st.sales, s.total ≠ JSNum.nan := by
    intro s hmem
    have hb := List.all_eq_true.mp hs s hmem
    simpa using hb
  refine ⟨rfl, ?_, ?_, ?_⟩
  · simp only [aggregateSummary]
    rw [foldl_add_eq_sum (fun p => jsOrZero p.stock) st.products 0, zero_add]
    exact congrArg List.sum (List.map_congr_left (fun p hmem => hz _ (hp' p hmem)))
  · simp only [aggregateSummary]
    rw [foldl_add_eq_sum (fun s => jsOrZero s.total) st.sales 0, zero_add]
    exact congrArg List.sum (List.map_congr_left (fun s hmem => hz _ (hs' s hmem)))
  · simp only [aggregateSummary]
    apply List.filter_congr
    intro p hmem
    rw [hz _ (hp' p hmem)]

/-- Low-stock example product with stock 3. -/
def exP3 : Product :=
  { serial := "P3", type := some "tile", brand := "B", name := "PThree", size := none,
    numBoxes := JSNum.num 1, numPieces := JSNum.num 0, pricePerBox := JSNum.num 10,
    stock := JSNum.num 3 }

/-- Example product with stock 6, above the low-stock threshold. -/
def exP6 : Product :=
  { serial := "P6", type := some "sanitary", brand := "B", name := "PSix", size := none,
    numBoxes := JSNum.num 1, numPieces := JSNum.num 0, pricePerBox := JSNum.num 10,
    stock := JSNum.num 6 }

/-- Two-product example ledger for the dashboard scenario. -/
def exC5St : LedgerState := { products := [exP3, exP6], sales := [] }

/-- C5 witness: on products with stocks 3 and 6 the summary counts two
products, the low-stock view matches the spec filter, and it contains only
the first product. -/
theorem C5_witness :
    (exC5St.products.all (fun p => !(p.stock == JSNum.nan)) = true) ∧
    (exC5St.sales.all (fun s => !(s.total == JSNum.nan)) = true) ∧
    (aggregateSummary exC5St).productCount = exC5St.products.length ∧
    (aggregateSummary exC5St).lowStockProducts =
      exC5St.products.filter (fun p => decide (specMissingZero p.stock ≤ 5)) ∧
    (aggregateSummary exC5St).lowStockProducts = [exP3] := by
  have hmain := C5_aggregate_summary exC5St (by decide) (by decide)
  exact ⟨by decide, by decide, hmain.1, hmain.2.2.2, by decide⟩

/-- C6 counterexample: a malformed stored blob for the products collection
makes initialisation fail with an uncaught parse error; it does not fall
back silently to empty collections as the claim states. -/
theorem C6_counterexample :
    loadLedger ParseOutcome.throws ParseOutcome.falsy =
      Except.error InitError.uncaughtParseError ∧
    loadLedger ParseOutcome.throws ParseOutcome.falsy ≠
      Except.ok { products := [], sales := [] } := by
  refine ⟨rfl, ?_⟩
  intro hcontra
  simp [loadLedger, loadColl] at hcontra

/-- C6 amended: initialisation yields empty collections when both stored
blobs are absent or deserialise to a falsy value, but a malformed blob for
either collection raises the uncaught parse error and initialisation fails
instead of falling back to empty collections. -/
theorem C6_load_fallback_or_raise (bp : ParseOutcome (List Product))
    (bs : ParseOutcome (List Sale)) :
    loadLedger ParseOutcome.falsy ParseOutcome.falsy =
      Except.ok { products := [], sales := [] } ∧
    (bp = ParseOutcome.throws →
      loadLedger bp bs = Except.error InitError.uncaughtParseError) ∧
    (bs = ParseOutcome.throws →
      loadLedger bp bs = Except.error InitError.uncaughtParseError) := by
  refine ⟨rfl, ?_, ?_⟩
  · rintro rfl
    rfl
  · rintro rfl
    cases bp <;> rfl

/-- C6 witness: no stored data gives the empty ledger, while a throwing
parse on either collection gives the uncaught parse error. -/
theorem C6_witness :
    loadLedger ParseOutcome.falsy ParseOutcome.falsy =
      Except.ok { products := [], sales := [] } ∧
    loadLedger ParseOutcome.throws ParseOutcome.falsy =
      Except.error InitError.uncaughtParseError ∧
    loadLedger (ParseOutcome.value [exA]) ParseOutcome.throws =
      Except.error InitError.uncaughtParseError :=
  ⟨(C6_load_fallback_or_raise ParseOutcome.falsy ParseOutcome.falsy).1,
   (C6_load_fallback_or_raise ParseOutcome.throws ParseOutcome.falsy).2.1 rfl,
   (C6_load_fallback_or_raise (ParseOutcome.value [exA]) ParseOutcome.throws).2.2 rfl⟩

/-- The code's tile and sanitary filters test exactly the spec-side
case-insensitive category predicate. -/
theorem optLower_beq_caseMatches (ty : Option String) (cat : String) :
    (optLower ty == some cat) = caseMatches ty cat := by
  cases ty <;> rfl

/-- The code's catch-all filter is the conjunction of the negations of the
tile and sanitary predicates. -/
theorem others_pred_eq (ty : Option String) :
    (!(match optLower ty with
       | some t => ["tile", "sanitary"].contains t
       | none => false))
      = (!(caseMatches ty "tile") && !(caseMatches ty "sanitary")) := by
  cases ty with
  | none => rfl
  | some s =>
    simp only [optLower, Option.map_some', caseMatches, List.contains_cons,
      List.contains_nil, Bool.or_false, Bool.not_or]

/-- C7: the three category listings partition the products.  The tiles
listing holds exactly the products whose type is present and compares
case-insensitively equal to tile, the sanitary listing those equal to
sanitary, and the others listing exactly the products matching neither
(products with a missing type included); membership in the ledger is
equivalent to membership in one of the three listings.  All three listings
are pure functions of the ledger state, so none of them can mutate it. -/
theorem C7_category_partition (st : LedgerState) (p : Product) :
    (p ∈ tilesList st ↔ (p ∈ st.products ∧ caseMatches p.type "tile" = true)) ∧
    (p ∈ sanitaryList st ↔ (p ∈ st.products ∧ caseMatches p.type "sanitary" = true)) ∧
    (p ∈ othersList st ↔ (p ∈ st.products ∧ caseMatches p.type "tile" = false ∧
      caseMatches p.type "sanitary" = false)) ∧
    (p ∈ st.products ↔ (p ∈ tilesList st ∨ p ∈ sanitaryList st ∨ p ∈ othersList st)) := by
  have ht : p ∈ tilesList st ↔ (p ∈ st.products ∧ caseMatches p.type "tile" = true) := by
    rw [tilesList, List.mem_filter, optLower_beq_caseMatches]
  have hsan : p ∈ sanitaryList st ↔ (p ∈ st.products ∧ caseMatches p.type "sanitary" = true) := by
    rw [sanitaryList, List.mem_filter, optLower_beq_caseMatches]
  have ho : p ∈ othersList st ↔ (p ∈ st.products ∧ caseMatches p.type "tile" = false ∧
      caseMatches p.type "sanitary" = false) := by
    rw [othersList, List.mem_filter, others_pred_eq]
    simp [Bool.and_eq_true, Bool.not_eq_true']
  refine ⟨ht, hsan, ho, ?_⟩
  constructor
  · intro hmem
    cases htile : caseMatches p.type "tile" with
    | true => exact Or.inl (ht.mpr ⟨hmem, htile⟩)
    | false =>
      cases hsa : caseMatches p.type "sanitary" with
      | true => exact Or.inr (Or.inl (hsan.mpr ⟨hmem, hsa⟩))
      | false => exact Or.inr (Or.inr (ho.mpr ⟨hmem, htile, hsa⟩))
  · rintro (h | h | h)
    · exact (ht.mp h).1
    · exact (hsan.mp h).1
    · exact (ho.mp h).1

/-- Example app state whose store is in sync with the ledger. -/
def exApp : AppState := { ledger := exSt, storeProducts := [exA], storeSales := [] }

/-- Example sale-entry attempt against product A. -/
def exAttempt : SaleAttempt := { serial := "A", quantity := JSNum.num 2, date := "d1" }

/-- C8 counterexample: immediately after a successful recordSale inside the
prepareNewSales loop, the store has not been flushed; on a starting state
whose store is in sync, one loop iteration records a sale but the store no
longer holds the current sales collection. -/
theorem C8_counterexample :
    (recordSale exApp.ledger exAttempt.serial exAttempt.quantity exAttempt.date).1 ≠
      SaleResult.invalidSale ∧
    (loopStep exApp exAttempt).storeSales ≠ (loopStep exApp exAttempt).ledger.sales := by
  exact ⟨by decide, by decide⟩

/-- C8 amended: the flush to the store happens once per prepareNewSales
invocation, after the sale-entry loop ends; when prepareNewSales returns,
the store holds exactly the current serialized collections, whatever
sequence of attempts was entered (mutations inside the loop are not flushed
individually). -/
theorem C8_flush_after_loop (app : AppState) (attempts : List SaleAttempt) :
    (prepareNewSales app attempts).storeProducts =
      (prepareNewSales app attempts).ledger.products ∧
    (prepareNewSales app attempts).storeSales =
      (prepareNewSales app attempts).ledger.sales ∧
    (prepareNewSales app attempts).ledger = (attempts.foldl loopStep app).ledger :=
  ⟨rfl, rfl, rfl⟩

/-- Subtracting anything from a missing stock gives NaN. -/
theorem jsSub_undef (q : JSNum) : jsSub JSNum.undef q = JSNum.nan := by
  cases q <;> rfl

/-- C9: when the matched product's stock field is missing, the
insufficient-stock comparison is always false, so recordSale accepts every
quantity, records and appends the sale, and leaves the product's stock
non-numeric (NaN). -/
theorem C9_missing_stock_accepts (st : LedgerState) (serial : String) (p : Product)
    (q : JSNum) (d : String)
    (hf : st.products.find? (fun x => x.serial == serial) = some p)
    (hstock : p.stock = JSNum.undef) :
    (recordSale st serial q d).1 = SaleResult.recorded (mkSale serial p q d) ∧
    (recordSale st serial q d).2.sales = st.sales ++ [mkSale serial p q d] ∧
    stockOf (recordSale st serial q d).2 serial = some JSNum.nan := by
  have hgtu : jsGt q JSNum.undef = false := by cases q <;> rfl
  have hgt : jsGt q p.stock = false := by rw [hstock]; exact hgtu
  refine ⟨?_, ?_, ?_⟩
  · simp [recordSale, hf, hgt]
  · simp [recordSale, hf, hgt]
  · simp [recordSale, hf, hgt, hgtu, stockOf, find?_updateFirstStock, hstock, jsSub_undef]

/-- Example product whose stock field is missing. -/
def exU : Product :=
  { serial := "U", type := none, brand := "B", name := "NU", size := none,
    numBoxes := JSNum.num 1, numPieces := JSNum.num 0, pricePerBox := JSNum.num 5,
    stock := JSNum.undef }

/-- Example ledger holding only the missing-stock product. -/
def exUSt : LedgerState := { products := [exU], sales := [] }

/-- C9 witness: selling 1000 units of the missing-stock product is
accepted and leaves the stock NaN. -/
theorem C9_witness :
    exUSt.products.find? (fun x => x.serial == "U") = some exU ∧
    exU.stock = JSNum.undef ∧
    (recordSale exUSt "U" (JSNum.num 1000) "d").1 =
      SaleResult.recorded (mkSale "U" exU (JSNum.num 1000) "d") ∧
    stockOf (recordSale exUSt "U" (JSNum.num 1000) "d").2 "U" = some JSNum.nan := by
  have hmain := C9_missing_stock_accepts exUSt "U" exU (JSNum.num 1000) "d" (by decide) rfl
  exact ⟨by decide, rfl, hmain.1, hmain.2.2⟩

/-- Pointwise relation between the product list before and after a sale
against a given serial: all fields except stock are unchanged, and a
product whose serial differs from the sold one is entirely unchanged. -/
def frameRel (serial : String) (p p' : Product) : Prop :=
  p'.serial = p.serial ∧ p'.type = p.type ∧ p'.brand = p.brand ∧ p'.name = p.name ∧
  p'.size = p.size ∧ p'.numBoxes = p.numBoxes ∧ p'.numPieces = p.numPieces ∧
  p'.pricePerBox = p.pricePerBox ∧ (p.serial ≠ serial → p' = p)

/-- The stock update relates the old and new product lists pointwise by
frameRel. -/
theorem forall2_updateFirstStock (l : List Product) (serial : String) (q : JSNum) :
    List.Forall₂ (frameRel serial) l (updateFirstStock l serial q) := by
  induction l with
  | nil => exact List.Forall₂.nil
  | cons p ps ih =>
    by_cases hser : p.serial = serial
    · have hb : (p.serial == serial) = true := beq_iff_eq.mpr hser
      simp only [updateFirstStock, hb, if_true]
      refine List.Forall₂.cons
        ⟨rfl, rfl, rfl, rfl, rfl, rfl, rfl, rfl, fun hne => absurd hser hne⟩ ?_
      exact List.forall₂_same.mpr
        (fun x _ => ⟨rfl, rfl, rfl, rfl, rfl, rfl, rfl, rfl, fun _ => rfl⟩)
    · have hb : (p.serial == serial) = false := beq_eq_false_iff_ne.mpr hser
      simp only [updateFirstStock, hb, Bool.false_eq_true, if_false]
      exact List.Forall₂.cons
        ⟨rfl, rfl, rfl, rfl, rfl, rfl, rfl, rfl, fun _ => rfl⟩ ih

/-- C10: a successful recordSale appends the new sale at the end of the
sales collection, leaving every pre-existing sale unchanged in place, and
relates old and new product lists pointwise by frameRel: every field other
than stock is unchanged for every product, and every product whose serial
differs from the sold serial is entirely unchanged. -/
theorem C10_frame (st : LedgerState) (serial : String) (q : JSNum) (d : String)
    (sale : Sale) (st' : LedgerState)
    (h : recordSale st serial q d = (SaleResult.recorded sale, st')) :
    st'.sales = st.sales ++ [sale] ∧
    List.Forall₂ (frameRel serial) st.products st'.products := by
  cases hf : st.products.find? (fun x => x.serial == serial) with
  | none =>
    simp [recordSale, hf] at h
  | some p =>
    cases hgt : jsGt q p.stock with
    | true =>
      simp [recordSale, hf, hgt] at h
    | false =>
      simp only [recordSale, hf, hgt, Bool.false_eq_true, if_false,
        Prod.mk.injEq, SaleResult.recorded.injEq] at h
      obtain ⟨hsale, hstate⟩ := h
      subst hsale
      subst hstate
      exact ⟨rfl, forall2_updateFirstStock st.products serial q⟩

/-- Concrete sale produced by the C10 example run. -/
def exC10Sale : Sale := mkSale "A" exA (JSNum.num 2) "d1"

/-- Concrete resulting state of the C10 example run. -/
def exC10St : LedgerState :=
  { products := updateFirstStock [exA] "A" (JSNum.num 2), sales := [exC10Sale] }

/-- C10 witness: the concrete sale of 2 units of product A appends exactly
one sale at the end of the (empty) history. -/
theorem C10_witness :
    recordSale exSt "A" (JSNum.num 2) "d1" = (SaleResult.recorded exC10Sale, exC10St) ∧
    exC10St.sales = exSt.sales ++ [exC10Sale] :=
  ⟨rfl, (C10_frame exSt "A" (JSNum.num 2) "d1" exC10Sale exC10St rfl).1⟩
